import Mathlib

/-!
Verification of the numbering, indexing and settings-resolution core of
the obsidian-math-booster repository, as a shallow embedding in Lean 4.

The embedded functions mirror the TypeScript source in
src/src/settings/settings.ts (which concatenates the plugin's
settings module, a CodeMirror view plugin, the utilities module
containing the numeral formatters, prefix inference, settings
resolution and title formatting, and the suggestion UI module).
JavaScript runtime behaviour is modelled explicitly:

- String(num) is plain decimal notation (jsIntDecimalChars);
- fallible operations (Array with an invalid length, JSON.parse)
  return Except or Option values instead of throwing;
- missing object properties and undefined are modelled with Option.
-/

namespace MathBooster

/-- Result of a JavaScript runtime exception; rangeError models the
RangeError thrown by an Array constructor with an invalid length,
typeError the TypeError from reading a property of undefined. -/
inductive JsErr where
  | rangeError
  | typeError
  deriving Repr, DecidableEq

/-! ## Numeral formatters (utils.ts, toRomanUpper and friends) -/

def digitCharAt (d : Nat) : Char := Char.ofNat (48 + d)

/-- Decimal digit characters of a natural number, most significant digit
first.  Fuel-based structural recursion so that kernel reduction works;
fuel n + 1 always suffices since a number has at most n + 1 digits. -/
def natToCharsAux : Nat → Nat → List Char
  | 0, _ => []
  | fuel + 1, n => if n < 10 then [digitCharAt n]
      else natToCharsAux fuel (n / 10) ++ [digitCharAt (n % 10)]

def natToChars (n : Nat) : List Char := natToCharsAux (n + 1) n

/-- Embeds the JavaScript expression String(num) for an integer num
(plain decimal notation; faithful for magnitudes below 1e21, which never
switch to scientific notation). -/
def jsIntDecimalChars (v : Int) : List Char :=
  if v < 0 then '-' :: natToChars v.natAbs else natToChars v.toNat

def isDigitCh (c : Char) : Bool := '0' ≤ c && c ≤ '9'

def natOfDigits (cs : List Char) : Nat :=
  cs.foldl (fun a c => a * 10 + (c.toNat - 48)) 0

/-- Embeds the JavaScript unary plus coercion of the string made of the
characters cs, restricted to the character shapes that arise in
toRomanUpper (empty string, digit strings, or a minus sign followed by
anything); none models NaN. -/
def jsToNumber (cs : List Char) : Option Int :=
  match cs with
  | [] => some 0
  | '-' :: rest =>
      if rest ≠ [] && rest.all isDigitCh then some (-(natOfDigits rest : Int)) else none
  | _ => if cs.all isDigitCh then some (natOfDigits cs) else none

/-- The ROMAN lookup table from utils.ts: hundreds row, tens row,
ones row. -/
def ROMAN : List String :=
  ["", "C", "CC", "CCC", "CD", "D", "DC", "DCC", "DCCC", "CM",
   "", "X", "XX", "XXX", "XL", "L", "LX", "LXX", "LXXX", "XC",
   "", "I", "II", "III", "IV", "V", "VI", "VII", "VIII", "IX"]

def charDigitVal (c : Char) : Option Nat :=
  if isDigitCh c then some (c.toNat - 48) else none

/-- One iteration of the while loop in toRomanUpper, which evaluates
ROMAN[+digits.pop() + (i * 10)] ?? "".  Popping an empty array yields
undefined, whose numeric coercion is NaN; indexing with NaN (or with a
NaN offset from a non-digit character such as the minus sign) yields
undefined, and the nullish coalescing turns that into "". -/
def romanStep (ds : List Char) (i : Nat) : String :=
  match ds.getLast? with
  | none => ""
  | some c =>
    match charDigitVal c with
    | some v => ROMAN.getD (v + i * 10) ""
    | none => ""

/-- Embeds toRomanUpper from utils.ts.  The loop runs for i = 2, 1, 0,
popping the ones, tens and hundreds digit characters and prepending the
corresponding table row entries; the remaining characters are joined and
coerced to a number t, and Array(t + 1).join("M") produces the leading
M characters.  An Array constructor whose argument is NaN or negative
throws a RangeError, hence the Except codomain. -/
def toRomanUpper (num : Int) : Except JsErr String :=
  let ds0 := jsIntDecimalChars num
  let s2 := romanStep ds0 2
  let ds1 := ds0.dropLast
  let s1 := romanStep ds1 1
  let ds2 := ds1.dropLast
  let s0 := romanStep ds2 0
  let rem := ds2.dropLast
  match jsToNumber rem with
  | none => .error .rangeError
  | some t =>
    if t + 1 < 0 then .error .rangeError
    else .ok (String.mk (List.replicate t.toNat 'M') ++ (s0 ++ s1 ++ s2))

/-- Embeds toRomanLower from utils.ts: toRomanUpper(num).toLowerCase(). -/
def toRomanLower (num : Int) : Except JsErr String :=
  (toRomanUpper num).map (fun s => String.mk (s.data.map Char.toLower))

/-- The ALPH constant from utils.ts. -/
def ALPH : String := "ABCDEFGHIJKLMNOPQRSTUVWXYZ"

/-- Digit character used by JavaScript Number.toString(26):
0-9 then a-p. -/
def base26DigitChar (d : Nat) : Char :=
  if d < 10 then Char.ofNat (48 + d) else Char.ofNat (87 + d)

def natToChars26Aux : Nat → Nat → List Char
  | 0, _ => []
  | fuel + 1, n => if n < 26 then [base26DigitChar n]
      else natToChars26Aux fuel (n / 26) ++ [base26DigitChar (n % 26)]

def natToChars26 (n : Nat) : List Char := natToChars26Aux (n + 1) n

/-- Embeds the JavaScript expression v.toString(26). -/
def jsToStringBase26 (v : Int) : List Char :=
  if v < 0 then '-' :: natToChars26 v.natAbs else natToChars26 v.toNat

/-- Embeds parseInt(c, 26) for a single character (case-insensitive
digits 0-9 and a-p); none models NaN. -/
def parseDigit26 (c : Char) : Option Nat :=
  if '0' ≤ c && c ≤ '9' then some (c.toNat - 48)
  else if 'a' ≤ c && c ≤ 'p' then some (c.toNat - 87)
  else if 'A' ≤ c && c ≤ 'P' then some (c.toNat - 55)
  else none

/-- Embeds toAlphUpper from utils.ts:
(num - 1).toString(26).split("").map(str to ALPH[parseInt(str, 26)]).join("").
Array.join turns the undefined produced for a non-digit character
(such as the minus sign of a negative number) into the empty string,
hence the filterMap. -/
def toAlphUpper (num : Int) : String :=
  String.mk ((jsToStringBase26 (num - 1)).filterMap
    (fun c => (parseDigit26 c).bind (fun v => ALPH.data.get? v)))

/-- Embeds toAlphLower from utils.ts: toAlphUpper(num).toLowerCase(). -/
def toAlphLower (num : Int) : String :=
  String.mk ((toAlphUpper num).data.map Char.toLower)

/-- Embeds the "arabic" entry of CONVERTER, which is the String
coercion. -/
def arabicStr (num : Int) : String := String.mk (jsIntDecimalChars num)

/-- The NUMBER_STYLES enum from settings.ts. -/
inductive NumberStyle where
  | arabic
  | alph
  | Alph
  | roman
  | Roman
  deriving Repr, DecidableEq

/-- Embeds the CONVERTER dispatch table from utils.ts.  The arabic and
alphabetic converters contain no throwing operation, so their entries
always return ok. -/
def CONVERTER (style : NumberStyle) (num : Int) : Except JsErr String :=
  match style with
  | .arabic => .ok (arabicStr num)
  | .alph => .ok (toAlphLower num)
  | .Alph => .ok (toAlphUpper num)
  | .roman => toRomanLower num
  | .Roman => toRomanUpper num

/-! ## Specification-side definitions for the numeral claims -/

/-- Bijective base-26 encoding with lowercase letters, following the
words of the specification: digits 1..26 map to a..z, so 1 is a,
26 is z and 27 is aa.  Fuel-based recursion; fuel n suffices. -/
def bijAlphAux : Nat → Nat → List Char
  | 0, _ => []
  | fuel + 1, n =>
    if n = 0 then []
    else bijAlphAux fuel ((n - 1) / 26) ++ [Char.ofNat (97 + (n - 1) % 26)]

/-- Lowercase bijective base-26 numeral of n, per the specification. -/
def specBijAlphLower (n : Nat) : String := String.mk (bijAlphAux n n)

/-- Value of a single Roman numeral character (reverse-parse side). -/
def romanCharVal (c : Char) : Int :=
  if c = 'I' then 1 else if c = 'V' then 5 else if c = 'X' then 10
  else if c = 'L' then 50 else if c = 'C' then 100 else if c = 'D' then 500
  else if c = 'M' then 1000 else 0

/-- Classic subtractive reverse-parse of a Roman numeral: process the
characters from the right, keeping the largest value seen so far;
a character strictly smaller than that maximum is subtracted, any other
is added and becomes the new maximum. -/
def romanParseAux : List Char → Int → Int → Int
  | [], _, acc => acc
  | c :: cs, mx, acc =>
    let v := romanCharVal c
    if v < mx then romanParseAux cs mx (acc - v)
    else romanParseAux cs v (acc + v)

/-- Reverse-parse of a Roman numeral string (subtractive notation). -/
def romanParse (s : String) : Int := romanParseAux s.data.reverse 0 0

/-- Bool-level round-trip check used to evaluate the Roman round-trip
claim on a concrete n. -/
def romanRoundTripOK (n : Nat) : Bool :=
  (toRomanUpper (n : Int)).toOption.map romanParse == some ((n : Nat) : Int)

/-! ## Prefix inference and label validation (utils.ts) -/

/-- ASCII whitespace matched by the regex \s (the inputs of interest
only contain plain spaces). -/
def jsWhitespace (c : Char) : Bool :=
  c = ' ' || c = '\t' || c = '\n' || c = '\r' || c = Char.ofNat 11 || c = Char.ofNat 12

/-- Embeds String.prototype.split with a character-class regex: splits
on every character satisfying p, keeping empty pieces (including a
trailing one), and returns one piece even for the empty string. -/
def splitCh (p : Char → Bool) : List Char → List (List Char)
  | [] => [[]]
  | c :: rest =>
    match splitCh p rest with
    | [] => [[]]
    | g :: gs => if p c then [] :: g :: gs else (c :: g) :: gs

def stripLit : List Char → List Char → Option (List Char)
  | [], cs => some cs
  | _, [] => none
  | p :: ps, c :: cs => if p = c then stripLit ps cs else none

def romanThousands : List (List Char) :=
  [[], ['M'], ['M','M'], ['M','M','M'], ['M','M','M','M']]

def romanHundreds : List (List Char) :=
  [[], ['C'], ['C','C'], ['C','C','C'], ['C','D'], ['D'], ['D','C'],
   ['D','C','C'], ['D','C','C','C'], ['C','M']]

def romanTens : List (List Char) :=
  [[], ['X'], ['X','X'], ['X','X','X'], ['X','L'], ['L'], ['L','X'],
   ['L','X','X'], ['L','X','X','X'], ['X','C']]

def romanOnes : List (List Char) :=
  [[], ['I'], ['I','I'], ['I','I','I'], ['I','V'], ['V'], ['V','I'],
   ['V','I','I'], ['V','I','I','I'], ['I','X']]

/-- Matches the anchored Roman-numeral regex from areValidLabels,
M{0,4}(CM|CD|D?C{0,3})(XC|XL|L?X{0,3})(IX|IV|V?I{0,3}), by enumerating
its finite language (each group has at most ten alternatives); cs must
already be uppercased.  Note that the empty string is in the language,
since every group can match the empty string. -/
def romanRegexMatch (cs : List Char) : Bool :=
  romanThousands.any fun a =>
    match stripLit a cs with
    | none => false
    | some r1 =>
      romanHundreds.any fun b =>
        match stripLit b r1 with
        | none => false
        | some r2 =>
          romanTens.any fun c2 =>
            match stripLit c2 r2 with
            | none => false
            | some r3 =>
              romanOnes.any fun d => stripLit d r3 == some []

/-- Embeds the inner isValidLabel of areValidLabels (utils.ts): one or
more digits, or a case-insensitive match of the Roman-numeral regex, or
a single letter. -/
def isValidLabel (label : String) : Bool :=
  (label ≠ "" && label.data.all (fun c => c.isDigit))
  || romanRegexMatch (label.data.map Char.toUpper)
  || (match label.data with | [c] => c.isAlpha | _ => false)

/-- The blank-removal step of areValidLabels (utils.ts): JavaScript
filter on truthiness keeps exactly the nonempty label strings. -/
def blankRemoved (labels : List String) : List String :=
  labels.filter (fun l => !l.isEmpty)

/-- Embeds areValidLabels (utils.ts).  Blank labels (empty strings,
which are falsy) are removed first; with at least two non-blank labels
each must be valid; with exactly one, the original split must have
produced exactly two labels and the first of them must be valid;
otherwise the labels are rejected. -/
def areValidLabels (labels : List String) : Bool :=
  if (blankRemoved labels).length ≥ 2 then (blankRemoved labels).all isValidLabel
  else if (blankRemoved labels).length = 1 then
    labels.length == 2 && isValidLabel (labels.headD "")
  else false

/-- Embeds Array.prototype.join with a separator, at the level of
character lists. -/
def joinSep (sep : List Char) : List (List Char) → List Char
  | [] => []
  | [p] => p
  | p :: ps => p ++ sep ++ joinSep sep ps

/-- Embeds String.prototype.endsWith at the level of character lists.
The empty suffix is a suffix of everything, as in JavaScript. -/
def endsWithChars (cs suffix : List Char) : Bool := suffix.isSuffixOf cs

/-- Embeds inferNumberPrefix (utils.ts): take the head of the source up
to the first whitespace, split it on the parse-separator characters,
validate the labels, and if valid join the first useFirstN labels with
the print separator, appending it when not already trailing. -/
def inferNumberPrefix (source : String) (parseSep : String) (printSep : String)
    (useFirstN : Nat) : Option String :=
  let head := source.data.takeWhile (fun c => !jsWhitespace c)
  let labels := (splitCh (fun c => parseSep.data.contains c) head).map
    (fun l => String.mk l)
  if areValidLabels labels then
    let used := labels.take useFirstN
    let pfxCs := joinSep printSep.data (used.map String.data)
    some (String.mk
      (if endsWithChars pfxCs printSep.data then pfxCs else pfxCs ++ printSep.data))
  else none

/-- Validity of a label in the words of claim C10: a (nonempty) digit
string, a (nonempty) Roman numeral, or a single letter.  This differs
from the code's isValidLabel only in that the code's Roman-numeral
regex also matches the empty string. -/
def specValidLabel (label : String) : Bool :=
  (label ≠ "" && label.data.all (fun c => c.isDigit))
  || (label ≠ "" && romanRegexMatch (label.data.map Char.toUpper))
  || (match label.data with | [c] => c.isAlpha | _ => false)

/-! ## Settings model and resolution (settings.ts and utils.ts)

JavaScript objects are string-keyed property maps and Object.assign
copies the defined properties of the source over the target, so a
settings object is embedded as a function from the (finitely many)
property names occurring in MathContextSettings, MathCalloutSettings
and MathCalloutPrivateFields to an optional property value; none means
the property is absent. -/

/-- Property names of MathContextSettings (the 21 context fields of
settings.ts) followed by those of MathCalloutSettings and
MathCalloutPrivateFields. -/
inductive SettingsField where
  | lang | titleSuffix | numberPrefix | numberSuffix | numberInit | numberStyle
  | numberDefault | refFormat | noteMathLinkFormat | eqNumberPrefix | eqNumberSuffix
  | eqNumberInit | eqNumberStyle | eqRefPrefix | eqRefSuffix | labelPrefix
  | rename | lineByLine | mathCalloutStyle | mathCalloutFontInherit | mainMathCallout
  | type | number | title | label | setAsNoteMathLink | _index
  deriving Repr, DecidableEq

/-- Property values: strings (including the enum-valued fields, whose
values are string literals at runtime), numbers, booleans, and the
rename map object. -/
inductive SettingsValue where
  | str (s : String)
  | num (n : Int)
  | bool (b : Bool)
  | strMap (m : List (String × String))
  deriving Repr, DecidableEq

/-- A JavaScript settings object: each property either absent or
defined with a value. -/
def SettingsObj : Type := SettingsField → Option SettingsValue

/-- The DEFAULT_LANG constant is imported from the default_lang module,
which is not part of src; its concrete value is irrelevant to every
claim. -/
def DEFAULT_LANG : String := "en"

open SettingsField SettingsValue in
/-- Embeds the DEFAULT_SETTINGS object literal of settings.ts: every
MathContextSettings field is defined, no callout field is. -/
def DEFAULT_SETTINGS : SettingsObj := fun f =>
  match f with
  | lang => some (str DEFAULT_LANG)
  | titleSuffix => some (str ".")
  | numberPrefix => some (str "")
  | numberSuffix => some (str "")
  | numberInit => some (num 1)
  | numberStyle => some (str "arabic")
  | numberDefault => some (str "auto")
  | refFormat => some (str "Type + number (+ title)")
  | noteMathLinkFormat => some (str "Type + number (+ title)")
  | eqNumberPrefix => some (str "")
  | eqNumberSuffix => some (str "")
  | eqNumberInit => some (num 1)
  | eqNumberStyle => some (str "arabic")
  | eqRefPrefix => some (str "")
  | eqRefSuffix => some (str "")
  | labelPrefix => some (str "")
  | rename => some (strMap [])
  | lineByLine => some (bool true)
  | mathCalloutStyle => some (str "framed")
  | mathCalloutFontInherit => some (bool false)
  | mainMathCallout => some (str "None")
  | _ => none

/-- Discriminates the MathContextSettings fields from the callout-local
fields. -/
def isContextField : SettingsField → Bool
  | .type | .number | .title | .label | .setAsNoteMathLink | ._index => false
  | _ => true

/-- A file or folder of the vault, with its parent chain; the root
folder has no parent. -/
inductive AFile where
  | root
  | child (parent : AFile) (name : String)

/-- Path of a file, mirroring Obsidian vault paths: the root folder has
path "/", a top-level entry has its own name as path, and a nested one
parentPath/name.  Paths key the per-path settings store
plugin.settings. -/
def AFile.path : AFile → String
  | .root => "/"
  | .child .root name => name
  | .child p name => p.path ++ "/" ++ name

/-- The while loop of getAncestors (utils.ts) before the final reverse:
the file itself, then its parents up to the root. -/
def collectUp : AFile → List AFile
  | .root => [.root]
  | .child p name => .child p name :: collectUp p

/-- Embeds getAncestors (utils.ts): the ancestors of a file from the
vault root down to the file itself. -/
def getAncestors (file : AFile) : List AFile := (collectUp file).reverse

/-- JavaScript-style defined-or: the first operand when it is a defined
property value, the second otherwise. -/
def jsOr (a b : Option SettingsValue) : Option SettingsValue :=
  match a with
  | some v => some v
  | none => b

/-- Embeds Object.assign(acc, src) for a possibly-undefined source:
every property defined on src overwrites the accumulator, and assigning
undefined is a no-op. -/
def assignObj (acc : SettingsObj) (src : Option SettingsObj) : SettingsObj :=
  match src with
  | some o => fun f => jsOr (o f) (acc f)
  | none => acc

/-- Embeds resolveSettings (utils.ts): start from a copy of
DEFAULT_SETTINGS, Object.assign the per-path override record of each
ancestor from the root down to the file (so later, deeper ancestors
overwrite earlier, shallower ones), then Object.assign the callout's
own settings object (undefined when resolving a file without a
callout). -/
def resolveSettings (settings : Option SettingsObj)
    (store : String → Option SettingsObj) (currentFile : AFile) : SettingsObj :=
  assignObj
    ((getAncestors currentFile).foldl
      (fun acc ancestor => assignObj acc (store ancestor.path)) DEFAULT_SETTINGS)
    settings

/-- First defined override for field f among the ancestors of the file,
scanning the deepest ancestor (the one closest to the file) first. -/
def inheritedOverride (store : String → Option SettingsObj) (file : AFile)
    (f : SettingsField) : Option SettingsValue :=
  (getAncestors file).reverse.findSome? (fun a => (store a.path).bind (fun o => o f))

/-! ## Heap model for the mutation-freedom claim

Object identity and mutation are made explicit with a tiny heap: a list
of settings objects indexed by address.  Allocation of the fresh object
literal appends to the heap; Object.assign(target, source) replaces the
object stored at the target address.  The per-path store and the local
settings are given as addresses of existing objects. -/

def emptyObj : SettingsObj := fun _ => none

abbrev Heap : Type := List SettingsObj

def heapGet (h : Heap) (a : Nat) : SettingsObj := h.getD a emptyObj

/-- Embeds Object.assign(target, source) on the heap: the object at
address dst is replaced by the merge of itself with the object at
address src (properties defined on src win); no other address
changes. -/
def heapAssign (h : Heap) (dst src : Nat) : Heap :=
  h.set dst (fun f => jsOr ((heapGet h src) f) ((heapGet h dst) f))

/-- Heap-level embedding of resolveSettings (utils.ts), making object
identity and mutation explicit: allocate a fresh empty object (the
object literal passed to the first Object.assign), assign the defaults
into it, then each ancestor override present in the store, then the
local settings, and return its address together with the final heap. -/
def resolveSettingsHeap (h : Heap) (localAddr : Option Nat)
    (storeAddr : String → Option Nat) (defaultAddr : Nat) (file : AFile) :
    Heap × Nat :=
  let r := h.length
  let h1 := h ++ [emptyObj]
  let h2 := heapAssign h1 r defaultAddr
  let h3 := (getAncestors file).foldl
    (fun hh ancestor =>
      match storeAddr ancestor.path with
      | some a => heapAssign hh r a
      | none => hh) h2
  let h4 := match localAddr with
    | some a => heapAssign h3 r a
    | none => h3
  (h4, r)

/-! ## Theorem callout reading and note scanning (utils.ts and spec 4.5) -/

/-- The MathCalloutSettings interface of settings.ts (named
TheoremCalloutSettings in the newer utils.ts imports): per-callout data
embedded in the document's JSON blob. -/
structure TheoremCalloutSettings where
  type : String
  number : String
  title : Option String
  label : Option String
  setAsNoteMathLink : Bool
  deriving Repr, DecidableEq

def dropSpaces (cs : List Char) : List Char := cs.dropWhile (· = ' ')

/-- Match of the THEOREM_CALLOUT_PATTERN regex at the head of cs.
The pattern is an unanchored greater-than sign, spaces, a bracketed
bang, spaces, the word math, spaces, a pipe, then a lazy capture up to
the first closing bracket (the settings blob) and the rest of the line
(the title); every space run is followed by a distinct literal, so
greedy space matching is deterministic. -/
def matchAtHead (cs : List Char) : Option (List Char × List Char) :=
  match cs with
  | '>' :: r1 =>
    match dropSpaces r1 with
    | '[' :: '!' :: r2 =>
      match dropSpaces r2 with
      | 'm' :: 'a' :: 't' :: 'h' :: r3 =>
        match dropSpaces r3 with
        | '|' :: r4 =>
          if r4.any (· = ']') then
            some (r4.takeWhile (· ≠ ']'), (r4.dropWhile (· ≠ ']')).tail)
          else none
        | _ => none
      | _ => none
    | _ => none
  | _ => none

/-- RegExp.prototype.exec searches for the first position where the
pattern matches. -/
def searchTC : List Char → Option (List Char × List Char)
  | [] => none
  | c :: rest =>
    match matchAtHead (c :: rest) with
    | some r => some r
    | none => searchTC rest

/-- Embeds matchTheoremCallout (utils.ts): the line is first tested for
truthiness (an empty line returns null), then matched against
THEOREM_CALLOUT_PATTERN; a match yields the capture groups, the
settings blob and the trailing title text. -/
def matchTheoremCallout (line : String) : Option (String × String) :=
  if line = "" then none
  else (searchTC line.data).map (fun r => (String.mk r.1, String.mk r.2))

/-- Embeds readTheoremCalloutSettingsAndTitle (utils.ts).  JSON.parse is
abstracted as the fallible function jsonParse; when the line matches the
callout pattern but the blob fails to parse, the JSON.parse exception
propagates out of this function (error); a non-matching line returns
undefined (ok none). -/
def readTheoremCalloutSettingsAndTitle
    (jsonParse : String → Option TheoremCalloutSettings) (line : String) :
    Except Unit (Option (TheoremCalloutSettings × String)) :=
  match matchTheoremCallout line with
  | none => .ok none
  | some (blob, rest) =>
    match jsonParse blob with
    | some s => .ok (some (s, rest.trim))
    | none => .error ()

/-- Modelled from the spec: the indexer module that performs the note
scan (spec sections 4.5 and 7) is not included under src — only
readTheoremCalloutSettingsAndTitle and its regex helpers are.  Per the
spec, the scan visits the note's lines in order, reads the theorem
callout settings of each, skips any item whose settings blob fails to
parse as JSON (a per-item failure that must not abort the scan), and
collects the remaining items in document order. -/
def scanNote (jsonParse : String → Option TheoremCalloutSettings)
    (lines : List String) : List (TheoremCalloutSettings × String) :=
  lines.foldr
    (fun line acc =>
      match readTheoremCalloutSettingsAndTitle jsonParse line with
      | .ok (some item) => item :: acc
      | .ok none => acc
      | .error _ => acc) []

/-! ## Title formatting (utils.ts) -/

/-- Modelled from the spec: profiles live in plugin.extraSettings, whose
interface is not part of src; per the spec's design notes, a profile
carries an explicit total mapping from environment id to display name,
accessed as profile.body.theorem in formatTheoremCalloutType (the field
is called theoremNames here because theorem is a Lean keyword). -/
structure ProfileBody where
  theoremNames : String → String

structure Profile where
  body : ProfileBody

/-- Resolved settings as consumed by formatTitle and getNumberPrefix
(utils.ts).  The context fields used by these functions, including the
prefix-inference fields, belong to the newer MathContextSettings
interface whose declaration is not part of src; their names and types
are taken from their uses in the src code.  Fields read with a nullish
fallback in the source (numberInit, numberStyle) and the private _index
are Options. -/
structure FormatSettings where
  type : String
  number : String
  title : Option String
  profile : String
  _index : Option Int
  numberInit : Option Int
  numberStyle : Option NumberStyle
  numberPrefix : String
  numberSuffix : String
  titleSuffix : String
  inferNumberPrefix : Bool
  inferNumberPrefixFromProperty : String
  inferNumberPrefixParseSep : String
  inferNumberPrefixPrintSep : String
  inferNumberPrefixUseFirstN : Nat

/-- Embeds formatTheoremCalloutType (utils.ts):
plugin.extraSettings.profiles[settings.profile].body.theorem[settings.type].
Reading body of an undefined profile throws a TypeError. -/
def formatTheoremCalloutType (profiles : String → Option Profile)
    (s : FormatSettings) : Except JsErr String :=
  match profiles s.profile with
  | none => .error .typeError
  | some prof => .ok (prof.body.theoremNames s.type)

/-- Embeds getNumberPrefix (utils.ts): an explicit numberPrefix wins
unconditionally; otherwise the inference source is the named frontmatter
property (via propLookup) or the file's base name, and when the
inference flag is on and the source non-empty, inferNumberPrefix is
applied, its undefined result coalesced to "". -/
def getNumberPrefix (propLookup : String → Option String) (basename : String)
    (s : FormatSettings) : String :=
  if s.numberPrefix ≠ "" then s.numberPrefix
  else
    let source : Option String :=
      if s.inferNumberPrefixFromProperty ≠ "" then
        propLookup s.inferNumberPrefixFromProperty
      else some basename
    match source with
    | some src =>
      if s.inferNumberPrefix && src ≠ "" then
        (inferNumberPrefix src s.inferNumberPrefixParseSep
          s.inferNumberPrefixPrintSep s.inferNumberPrefixUseFirstN).getD ""
      else ""
    | none => ""

/-- Embeds formatTitleWithoutSubtitle (utils.ts): the environment
display name, followed — only when number is non-empty — by either the
computed numeral (when number is the literal auto and an ordinal
_index is present: number value is _index plus numberInit defaulted to
one, rendered by the CONVERTER entry for the numberStyle defaulted to
arabic, wrapped in the inferred prefix and the suffix) or the verbatim
number string. -/
def formatTitleWithoutSubtitle (propLookup : String → Option String)
    (basename : String) (profiles : String → Option Profile)
    (s : FormatSettings) : Except JsErr String := do
  let t ← formatTheoremCalloutType profiles s
  if s.number ≠ "" then
    if s.number = "auto" then
      match s._index with
      | some i =>
        let num : Int := i + (s.numberInit.getD 1)
        let conv ← CONVERTER (s.numberStyle.getD NumberStyle.arabic) num
        pure (t ++ " " ++ getNumberPrefix propLookup basename s ++ conv
          ++ s.numberSuffix)
      | none => pure t
    else pure (t ++ " " ++ s.number)
  else pure t

/-- Embeds formatTitle (utils.ts): the subtitle-free title, then the
custom title in parentheses when present and non-empty, then the
configured titleSuffix unless suppressed. -/
def formatTitle (propLookup : String → Option String) (basename : String)
    (profiles : String → Option Profile) (s : FormatSettings)
    (noTitleSuffix : Bool) : Except JsErr String := do
  let t ← formatTitleWithoutSubtitle propLookup basename profiles s
  let t := match s.title with
    | some ttl => if ttl ≠ "" then t ++ " (" ++ ttl ++ ")" else t
    | none => t
  if !noTitleSuffix && s.titleSuffix ≠ "" then pure (t ++ s.titleSuffix)
  else pure t

/-! ## Concrete fixtures used by the witnesses -/

/-- Concrete JSON parser stand-in for the scan witness: exactly the blob
GOOD parses. -/
def demoParse (s : String) : Option TheoremCalloutSettings :=
  if s = "GOOD" then some ⟨"theorem", "auto", none, none, false⟩ else none

/-- Concrete profile for the formatting witness. -/
def demoProfile : Profile :=
  ⟨⟨fun t => if t = "thm" then "Theorem" else t⟩⟩

def demoProfiles : String → Option Profile := fun p =>
  if p = "Main" then some demoProfile else none

/-- Concrete resolved settings for the formatting witness: automatic
numbering requested but no ordinal index assigned yet. -/
def demoAutoSettings : FormatSettings where
  type := "thm"
  number := "auto"
  title := none
  profile := "Main"
  _index := none
  numberInit := some 1
  numberStyle := some .arabic
  numberPrefix := ""
  numberSuffix := ""
  titleSuffix := "."
  inferNumberPrefix := false
  inferNumberPrefixFromProperty := ""
  inferNumberPrefixParseSep := "."
  inferNumberPrefixPrintSep := "."
  inferNumberPrefixUseFirstN := 1

/-! ## Helper lemmas -/

theorem assignObj_apply (acc : SettingsObj) (so : Option SettingsObj)
    (f : SettingsField) :
    assignObj acc so f = jsOr (so.bind (fun o => o f)) (acc f) := by
  cases so with
  | none => rfl
  | some o => rfl

theorem foldl_assign_char (store : String → Option SettingsObj)
    (l : List AFile) (init : SettingsObj) (f : SettingsField) :
    (l.foldl (fun acc ancestor => assignObj acc (store ancestor.path)) init) f
      = jsOr (l.reverse.findSome? (fun a => (store a.path).bind (fun o => o f)))
          (init f) := by
  induction l generalizing init with
  | nil => simp [List.findSome?, jsOr]
  | cons a l ih =>
    rw [List.foldl_cons, ih, List.reverse_cons, List.findSome?_append, assignObj_apply]
    cases hl : l.reverse.findSome? (fun a => (store a.path).bind (fun o => o f)) with
    | some v => simp [jsOr, Option.orElse]
    | none =>
      cases hb : (store a.path).bind (fun o => o f) <;>
        simp [jsOr, List.findSome?, hb, Option.orElse]

theorem heapAssign_preserves (h : Heap) (dst src a : Nat) (hne : a ≠ dst) :
    (heapAssign h dst src)[a]? = h[a]? := by
  unfold heapAssign
  exact List.getElem?_set_ne (fun he => hne he.symm)

set_option maxHeartbeats 8000000 in
set_option maxRecDepth 10000 in
theorem romanRoundTrip_chunk1 :
    (List.range' 1 1000).all (fun n => romanRoundTripOK n) = true := by decide

set_option maxHeartbeats 8000000 in
set_option maxRecDepth 10000 in
theorem romanRoundTrip_chunk2 :
    (List.range' 1001 1000).all (fun n => romanRoundTripOK n) = true := by decide

set_option maxHeartbeats 8000000 in
set_option maxRecDepth 10000 in
theorem romanRoundTrip_chunk3 :
    (List.range' 2001 1000).all (fun n => romanRoundTripOK n) = true := by decide

set_option maxHeartbeats 8000000 in
set_option maxRecDepth 10000 in
theorem romanRoundTrip_chunk4 :
    (List.range' 3001 999).all (fun n => romanRoundTripOK n) = true := by decide

theorem romanRoundTripOK_of_mem {a len : Nat}
    (h : (List.range' a len).all (fun n => romanRoundTripOK n) = true)
    {n : Nat} (h1 : a ≤ n) (h2 : n < a + len) : romanRoundTripOK n = true := by
  rw [List.all_eq_true] at h
  exact h n (by rw [List.mem_range'_1]; exact ⟨h1, h2⟩)

theorem romanRoundTripOK_all {n : Nat} (h1 : 1 ≤ n) (h2 : n ≤ 3999) :
    romanRoundTripOK n = true := by
  rcases Nat.lt_or_ge n 1001 with h | h
  · exact romanRoundTripOK_of_mem romanRoundTrip_chunk1 h1 h
  rcases Nat.lt_or_ge n 2001 with h' | h'
  · exact romanRoundTripOK_of_mem romanRoundTrip_chunk2 h h'
  rcases Nat.lt_or_ge n 3001 with h2' | h2'
  · exact romanRoundTripOK_of_mem romanRoundTrip_chunk3 h' h2'
  · exact romanRoundTripOK_of_mem romanRoundTrip_chunk4 h2' (by omega)

/-! ## Claim theorems -/

/-- C1 counterexample: the claim asserts toAlphLower(27) = "aa"
(bijective base-26), but the code converts num - 1 to plain base 26 and
maps digits to letters, giving "ba". -/
theorem c1_alph_not_bijective_counterexample :
    toAlphLower 27 = "ba" ∧ toAlphLower 27 ≠ "aa" := by decide

/-- C1 (amended): the alphabetic numeral formatters encode n as the
plain base-26 representation of n - 1 with digit d mapped to the
(d + 1)-st letter.  This agrees with bijective base-26 exactly on
1 ≤ n ≤ 26 (toAlphLower(1) = "a", toAlphLower(26) = "z"), but
diverges from it afterwards: toAlphLower(27) = "ba" (not "aa") and
toAlphUpper(28) = "BB" (not "AB"). -/
theorem c1_alph_plain_base26 :
    (∀ n : Nat, 1 ≤ n → n ≤ 26 → toAlphLower (n : Int) = specBijAlphLower n) ∧
    toAlphLower 1 = "a" ∧ toAlphLower 26 = "z" ∧
    toAlphLower 27 = "ba" ∧ toAlphUpper 28 = "BB" := by
  refine ⟨?_, by decide, by decide, by decide, by decide⟩
  have h : ∀ n : Nat, n < 27 →
      (n = 0 || (toAlphLower (n : Int) == specBijAlphLower n)) = true := by decide
  intro n h1 h2
  have hmem := h n (by omega)
  have h0 : (decide (n = 0)) = false := decide_eq_false (by omega)
  rw [h0, Bool.false_or, beq_iff_eq] at hmem
  exact hmem

/-- C1 witness: the amended theorem applied at n = 26. -/
theorem c1_alph_plain_base26_witness :
    toAlphLower ((26 : Nat) : Int) = specBijAlphLower 26 :=
  c1_alph_plain_base26.1 26 (by decide) (by decide)

/-- C5: for every n in 1..3999, toRomanUpper(n) succeeds and produces a
classic subtractive-notation Roman numeral from which the subtractive
reverse-parse reconstructs n. -/
theorem c5_roman_round_trip (n : Nat) (h1 : 1 ≤ n) (h2 : n ≤ 3999) :
    ∃ s, toRomanUpper (n : Int) = .ok s ∧ romanParse s = (n : Int) := by
  have h := romanRoundTripOK_all h1 h2
  unfold romanRoundTripOK at h
  rcases hE : toRomanUpper (n : Int) with e | s
  · rw [hE] at h; simp [Except.toOption] at h
  · rw [hE] at h; simp [Except.toOption] at h
    exact ⟨s, rfl, h⟩

/-- C5 witness: the round-trip theorem applied at n = 1984, where the
numeral is MCMLXXXIV. -/
theorem c5_roman_round_trip_witness :
    ∃ s, toRomanUpper ((1984 : Nat) : Int) = .ok s ∧ romanParse s = ((1984 : Nat) : Int) :=
  c5_roman_round_trip 1984 (by decide) (by decide)

/-- C3 counterexample: the claim asserts that the Roman formatters never
throw for any negative integer, but toRomanUpper(-100) evaluates
Array(NaN) (the characters left after the three pops are just the minus
sign, which coerces to NaN), which throws a RangeError. -/
theorem c3_roman_throws_counterexample :
    toRomanUpper (-100) = .error .rangeError ∧
    toRomanLower (-100) = .error .rangeError := ⟨rfl, rfl⟩

/-- C3 (amended): the arabic and alphabetic formatters never throw for
any integer n ≤ 0 (their implementations contain no throwing
operation), and the Roman formatters return best-effort strings without
throwing for -99 ≤ n ≤ 0; but the Roman formatters do throw a
RangeError for some negative inputs, for example n = -100 (in general,
those whose decimal form keeps a bare or negative prefix after the
three digit pops). -/
theorem c3_formatters_no_throw (n : Int) (h : n ≤ 0) :
    (CONVERTER .arabic n).isOk = true ∧
    (CONVERTER .alph n).isOk = true ∧
    (CONVERTER .Alph n).isOk = true ∧
    (-99 ≤ n → (CONVERTER .roman n).isOk = true ∧ (CONVERTER .Roman n).isOk = true) ∧
    (CONVERTER .Roman (-100)).isOk = false := by
  refine ⟨rfl, rfl, rfl, ?_, by decide⟩
  intro h99
  have key : ∀ m : Nat, m ≤ 99 →
      ((toRomanUpper (-(m : Int))).isOk && (toRomanLower (-(m : Int))).isOk) = true := by
    intro m hm
    have : ∀ m : Nat, m < 100 →
        ((toRomanUpper (-(m : Int))).isOk && (toRomanLower (-(m : Int))).isOk) = true := by
      decide
    exact this m (by omega)
  have hn : n = -((n.natAbs : Nat) : Int) := by omega
  have habs : n.natAbs ≤ 99 := by omega
  have := key n.natAbs habs
  rw [Bool.and_eq_true] at this
  rw [hn]
  exact ⟨this.2, this.1⟩

/-- C3 witness: the amended theorem applied at n = -7, where both Roman
formatters succeed. -/
theorem c3_formatters_no_throw_witness :
    (CONVERTER .arabic (-7)).isOk = true ∧
    (CONVERTER .alph (-7)).isOk = true ∧
    (CONVERTER .Alph (-7)).isOk = true ∧
    (-99 ≤ (-7 : Int) → (CONVERTER .roman (-7)).isOk = true ∧
      (CONVERTER .Roman (-7)).isOk = true) ∧
    (CONVERTER .Roman (-100)).isOk = false :=
  c3_formatters_no_throw (-7) (by decide)

/-- C2 counterexample: the claim asserts that
inferNumberPrefix("1-2.A foo", "-.", ".", 3) returns "1-2.A.", but the
code joins the labels with the print separator ".", giving "1.2.A.". -/
theorem c2_infer_first_example_counterexample :
    inferNumberPrefix "1-2.A foo" "-." "." 3 = some "1.2.A." ∧
    inferNumberPrefix "1-2.A foo" "-." "." 3 ≠ some "1-2.A." := by
  refine ⟨rfl, by decide⟩

/-- C2 (amended): the three prefix-inference examples, with the first
corrected to the value the code computes: the labels are joined with
the print separator, so the result is "1.2.A." rather than "1-2.A.";
the second example returns none (only the article heads the filename)
and the third returns "A.". -/
theorem c2_infer_examples :
    inferNumberPrefix "1-2.A foo" "-." "." 3 = some "1.2.A." ∧
    inferNumberPrefix "A note about calculus" " ." "." 1 = none ∧
    inferNumberPrefix "A. note" "." "." 1 = some "A." :=
  ⟨rfl, rfl, rfl⟩

/-- C10 counterexample: the list ["", "A"] has exactly one non-blank
element and length two, its first element (the empty string) is not a
valid label in the claim's sense (not digits, not a nonempty Roman
numeral, not a single letter), yet areValidLabels accepts it, because
the code's Roman-numeral regex matches the empty string. -/
theorem c10_blank_first_counterexample :
    areValidLabels ["", "A"] = true ∧
    (blankRemoved ["", "A"]).length = 1 ∧
    (["", "A"] : List String).length = 2 ∧
    specValidLabel "" = false ∧
    isValidLabel "" = true := by decide

/-- C10 (amended): for a label list with exactly one non-blank element,
areValidLabels returns true iff the list has length exactly two and its
first element is accepted by the code's validator isValidLabel — which
accepts digit strings, matches of the Roman-numeral regex including the
empty string, and single letters.  Lists whose elements are all blank
(in particular the empty list) are always rejected. -/
theorem c10_single_nonblank_rule (labels : List String)
    (h : (blankRemoved labels).length = 1) :
    (areValidLabels labels = true ↔
      labels.length = 2 ∧ isValidLabel (labels.headD "") = true) ∧
    (∀ ls : List String, (blankRemoved ls).length = 0 →
      areValidLabels ls = false) := by
  constructor
  · unfold areValidLabels
    rw [h]
    simp
  · intro ls hz
    unfold areValidLabels
    rw [hz]
    simp

/-- C10 witness: the amended rule applied at ["A", ""], which has one
non-blank element, length two and a valid first label, hence is
accepted; and at the all-blank list ["", ""], which is rejected. -/
theorem c10_single_nonblank_rule_witness :
    (areValidLabels ["A", ""] = true ↔
      (["A", ""] : List String).length = 2 ∧
      isValidLabel ((["A", ""] : List String).headD "") = true) ∧
    (∀ ls : List String, (blankRemoved ls).length = 0 →
      areValidLabels ls = false) :=
  c10_single_nonblank_rule ["A", ""] (by decide)

/-- C6: resolution is override-monotonic.  For every file, store, local
settings and field, the resolved value is: the local settings value when
the local settings define the field (the item's own settings win over
everything inherited); otherwise the override of the deepest ancestor
defining the field — inheritedOverride scans the ancestors closest to
the file first, so a deeper ancestor always wins over a shallower
one and any ancestor override wins over the global default; otherwise
the global default. -/
theorem c6_resolve_override_monotonic (settings : Option SettingsObj)
    (store : String → Option SettingsObj) (file : AFile) (f : SettingsField) :
    resolveSettings settings store file f
      = jsOr (settings.bind (fun o => o f))
          (jsOr (inheritedOverride store file f) (DEFAULT_SETTINGS f)) := by
  unfold resolveSettings inheritedOverride
  rw [assignObj_apply, foldl_assign_char]

/-- C7: for every file, per-path store and (possibly absent) local
settings, the object returned by resolveSettings defines every
MathContextSettings field — resolution never leaves a context field
undefined, since DEFAULT_SETTINGS defines them all and Object.assign
never removes a property. -/
theorem c7_resolve_all_fields_defined (settings : Option SettingsObj)
    (store : String → Option SettingsObj) (file : AFile) (f : SettingsField)
    (h : isContextField f = true) :
    (resolveSettings settings store file f).isSome = true := by
  rw [c6_resolve_override_monotonic]
  have hd : (DEFAULT_SETTINGS f).isSome = true := by
    cases f <;> first | rfl | exact Bool.noConfusion h
  cases hs : settings.bind (fun o => o f) with
  | some v => rfl
  | none =>
    cases hi : inheritedOverride store file f with
    | some v => rfl
    | none => simpa [jsOr] using hd

/-- C7 witness: with an empty store, no local settings and the vault
root, the resolved lang field is defined. -/
theorem c7_resolve_all_fields_defined_witness :
    (resolveSettings none (fun _ => none) AFile.root SettingsField.lang).isSome
      = true :=
  c7_resolve_all_fields_defined none (fun _ => none) AFile.root SettingsField.lang rfl

/-- C8: resolveSettings mutates none of the pre-existing objects — in
particular neither DEFAULT_SETTINGS nor any entry of the per-path store
nor the local settings object, all of which live at addresses of the
original heap — and returns a freshly allocated object whose address
equals the old heap length, hence differs from the address of every
pre-existing object. -/
theorem c8_resolve_no_mutation_fresh (h : Heap) (localAddr : Option Nat)
    (storeAddr : String → Option Nat) (defaultAddr : Nat) (file : AFile)
    (a : Nat) (ha : a < h.length) :
    (resolveSettingsHeap h localAddr storeAddr defaultAddr file).2 = h.length ∧
    (resolveSettingsHeap h localAddr storeAddr defaultAddr file).2 ≠ a ∧
    (resolveSettingsHeap h localAddr storeAddr defaultAddr file).1[a]? = h[a]? := by
  have hr : (resolveSettingsHeap h localAddr storeAddr defaultAddr file).2
      = h.length := rfl
  refine ⟨hr, by rw [hr]; omega, ?_⟩
  unfold resolveSettingsHeap
  simp only
  have hane : a ≠ h.length := by omega
  have step3 : ∀ (l : List AFile) (hh : Heap),
      hh[a]? = h[a]? →
      (l.foldl (fun hh ancestor =>
        match storeAddr ancestor.path with
        | some s => heapAssign hh h.length s
        | none => hh) hh)[a]? = h[a]? := by
    intro l
    induction l with
    | nil => intro hh hinv; exact hinv
    | cons x xs ih =>
      intro hh hinv
      rw [List.foldl_cons]
      cases storeAddr x.path with
      | some s =>
        simp only
        exact ih _ ((heapAssign_preserves hh h.length s a hane).trans hinv)
      | none => exact ih _ hinv
  have h12 : (heapAssign (h ++ [emptyObj]) h.length defaultAddr)[a]? = h[a]? := by
    rw [heapAssign_preserves _ _ _ _ hane]
    exact List.getElem?_append_left ha
  have h3 := step3 (getAncestors file) _ h12
  cases localAddr with
  | some la =>
    simp only
    rw [heapAssign_preserves _ _ _ _ hane]
    exact h3
  | none => exact h3

/-- C8 witness: on a one-object heap holding the defaults at address 0,
resolution returns the fresh address 1 and leaves address 0 intact. -/
theorem c8_resolve_no_mutation_fresh_witness :
    (resolveSettingsHeap [DEFAULT_SETTINGS] none (fun _ => none) 0 AFile.root).2
        = [DEFAULT_SETTINGS].length ∧
    (resolveSettingsHeap [DEFAULT_SETTINGS] none (fun _ => none) 0 AFile.root).2 ≠ 0 ∧
    (resolveSettingsHeap [DEFAULT_SETTINGS] none (fun _ => none) 0 AFile.root).1[0]?
        = [DEFAULT_SETTINGS][0]? :=
  c8_resolve_no_mutation_fresh [DEFAULT_SETTINGS] none (fun _ => none) 0 AFile.root 0
    (by decide)

/-- C4: a theorem-callout header line whose settings blob fails to
parse is a per-item failure: for every parser, the scan of any note
containing such a line among other lines skips exactly that item — the
result equals the scan of the lines before it followed by the scan of
the lines after it, so the offending item is not indexed and the
remaining sections are still processed (scanNote is total, so no
exception escapes the scan). -/
theorem c4_malformed_json_skipped
    (jsonParse : String → Option TheoremCalloutSettings)
    (pre post : List String) (bad : String)
    (hbad : readTheoremCalloutSettingsAndTitle jsonParse bad = .error ()) :
    scanNote jsonParse (pre ++ bad :: post)
      = scanNote jsonParse pre ++ scanNote jsonParse post := by
  induction pre with
  | nil =>
    show scanNote jsonParse (bad :: post) = scanNote jsonParse post
    unfold scanNote
    rw [List.foldr_cons, hbad]
  | cons x xs ih =>
    unfold scanNote at ih ⊢
    rw [List.cons_append, List.foldr_cons, List.foldr_cons, ih]
    cases readTheoremCalloutSettingsAndTitle jsonParse x with
    | error e => rfl
    | ok o => cases o with
      | none => rfl
      | some item => rfl

/-- C4 witness: a note with a valid callout, a callout whose blob BAD
fails to parse, a plain line and another valid callout; the bad item is
skipped and both valid items survive. -/
theorem c4_malformed_json_skipped_witness :
    readTheoremCalloutSettingsAndTitle demoParse "> [!math|BAD] broken"
        = .error () ∧
    scanNote demoParse
        ["> [!math|GOOD] A", "> [!math|BAD] broken", "plain", "> [!math|GOOD] B"]
      = scanNote demoParse ["> [!math|GOOD] A"]
        ++ scanNote demoParse ["plain", "> [!math|GOOD] B"] :=
  ⟨rfl, c4_malformed_json_skipped demoParse ["> [!math|GOOD] A"]
    ["plain", "> [!math|GOOD] B"] "> [!math|BAD] broken" rfl⟩

/-- C9: for every resolved settings object whose number is the literal
auto but whose private _index is absent, formatTitleWithoutSubtitle
returns the bare environment display name — no numeral is appended and
no error is raised (given that the settings name an existing profile);
formatTitle then only appends the title suffix (and the custom title,
absent here). -/
theorem c9_auto_without_index (propLookup : String → Option String)
    (basename : String) (profiles : String → Option Profile)
    (s : FormatSettings) (prof : Profile)
    (hnum : s.number = "auto") (hidx : s._index = none)
    (hprof : profiles s.profile = some prof) :
    formatTitleWithoutSubtitle propLookup basename profiles s
        = .ok (prof.body.theoremNames s.type) ∧
    (s.title = none →
      formatTitle propLookup basename profiles s false
        = .ok (prof.body.theoremNames s.type ++ s.titleSuffix)) := by
  have h1 : formatTitleWithoutSubtitle propLookup basename profiles s
      = .ok (prof.body.theoremNames s.type) := by
    unfold formatTitleWithoutSubtitle formatTheoremCalloutType
    rw [hprof, hnum, hidx]
    simp [Except.bind]
  refine ⟨h1, ?_⟩
  intro htitle
  unfold formatTitle
  rw [h1, htitle]
  by_cases hts : s.titleSuffix = ""
  · simp [Except.bind, hts]
  · simp [Except.bind, hts]

/-- C9 witness: with the demo profile and auto-numbered settings whose
_index is absent, the subtitle-free title is exactly the environment
name and the full title just appends the period suffix. -/
theorem c9_auto_without_index_witness :
    formatTitleWithoutSubtitle (fun _ => none) "note" demoProfiles demoAutoSettings
        = .ok (demoProfile.body.theoremNames demoAutoSettings.type) ∧
    (demoAutoSettings.title = none →
      formatTitle (fun _ => none) "note" demoProfiles demoAutoSettings false
        = .ok (demoProfile.body.theoremNames demoAutoSettings.type
            ++ demoAutoSettings.titleSuffix)) :=
  c9_auto_without_index (fun _ => none) "note" demoProfiles demoAutoSettings
    demoProfile rfl rfl rfl

end MathBooster
